import Mathlib

/-!
Verification of the gollora code-review agent's aggregation and RAG
subsystems, shallowly embedded from the Go sources.

Conventions of the embedding:
* Go strings are Lean `String`s; all primitive string operations used by the
  sources (prefix/suffix trimming, lower-casing, lexicographic comparison,
  `filepath.Ext`, `filepath.Base`) are re-implemented structurally over
  `List Char` so that the kernel can evaluate them.  Go compares strings
  byte-wise over UTF-8, which coincides with code-point lexicographic order,
  i.e. with `List Char` lexicographic order.
* Go `int` is `Int`; the summary counters only ever increase, and are kept
  as `Nat`.
* Go maps used as multiset counters (`map[string]int`) are total functions
  `String → Nat` (absent key = 0, as in Go).  The deduplication map
  (`map[string]CodeIssue`) is an association list updated in place; Go's
  iteration order over a map is unspecified, and no theorem below depends on
  the order in which the deduplicated issues are re-inserted.
* Fallible Go calls return `Except String α` (the `String` is the error
  text); external collaborators (LLM client, JSON decoder, filesystem walk)
  are oracle fields of an environment record, while all code of the
  repository itself is translated.
* `float32`/`float64` values are modelled exactly by `ℚ` for the additive
  accumulation loops (exact on the all-zero paths relevant to the claims)
  and by `ℝ` for the final `sqrt`/division expression.
-/

/-! ### Primitive string helpers (structural models of Go string operations) -/

/-- Model of Go's byte-wise string comparison `a < b`, as lexicographic
order on the code-point sequence (UTF-8 byte order agrees with code-point
order). Structural so that the kernel can evaluate it. -/
def listLtB : List Char → List Char → Bool
  | [], [] => false
  | [], _ :: _ => true
  | _ :: _, [] => false
  | a :: as, b :: bs =>
    if a < b then true else if b < a then false else listLtB as bs

/-- Go `a < b` on strings. -/
def goStringLt (a b : String) : Bool := listLtB a.data b.data

/-- Helper: is `pre` a leading segment of `s`? (used by the models of
`strings.TrimPrefix` / `strings.TrimSuffix`). -/
def isPreOf : List Char → List Char → Bool
  | [], _ => true
  | _ :: _, [] => false
  | a :: as, b :: bs => a = b && isPreOf as bs

/-- Model of Go `strings.TrimPrefix(s, pre)`. -/
def goTrimPrefixFn (s pre : String) : String :=
  if isPreOf pre.data s.data then String.mk (s.data.drop pre.data.length) else s

/-- Model of Go `strings.TrimSuffix(s, suf)`. -/
def goTrimSuffixFn (s suf : String) : String :=
  if isPreOf suf.data.reverse s.data.reverse then
    String.mk ((s.data.reverse.drop suf.data.length).reverse)
  else s

/-- Model of Go `strings.ToLower` on the ASCII fragment (every string the
sources lower-case is ASCII); `Char.toLower` maps exactly the characters
A–Z. -/
def goToLower (s : String) : String := String.mk (s.data.map Char.toLower)

/-- Model of Go `strings.Contains(s, sub)`. -/
def containsSub : List Char → List Char → Bool
  | [], sub => isPreOf sub []
  | c :: rest, sub => isPreOf sub (c :: rest) || containsSub rest sub

/-- Model of Go `filepath.Ext`: scan backwards from the end; a separator
ends the scan with `""`, a dot returns the suffix from that dot on.
The first argument is the reversed remaining path, the second accumulates
the already-scanned suffix in order. -/
def extScan : List Char → List Char → String
  | [], _ => ""
  | c :: rest, acc =>
    if c = '/' then "" else if c = '.' then String.mk (c :: acc) else extScan rest (c :: acc)

/-- Go `filepath.Ext(p)`. -/
def filepathExt (p : String) : String := extScan p.data.reverse []

/-- Go `filepath.Base(p)` (Unix separators): strip trailing slashes, take
the last component; `""` gives `"."`, an all-slash path gives `"/"`. -/
def filepathBase (p : String) : String :=
  if p = "" then "."
  else
    let stripped := (p.data.reverse.dropWhile (fun c => c = '/')).reverse
    let lastComp := (stripped.reverse.takeWhile (fun c => c ≠ '/')).reverse
    if lastComp = [] then "/" else String.mk lastComp

/-- Model of Go's conversion `string(i)` for an integer `i` (a RUNE
conversion, not a decimal rendering): a valid non-surrogate code point
yields the one-character string of that code point, anything else yields
the replacement character U+FFFD.  (Go first truncates to `rune` = int32;
irrelevant for the line numbers considered here.) -/
def goStringOfInt (n : Int) : String :=
  if 0 ≤ n ∧ (n < 0xD800 ∨ (0xDFFF < n ∧ n ≤ 0x10FFFF)) then
    String.mk [Char.ofNat n.toNat]
  else
    String.mk [Char.ofNat 0xFFFD]

/-! ### Data model (internal/models, part_000) -/

/-- Model of `models.CodeIssue`.  `IssueSeverity` and `IssueType` are Go
string types, modelled as `String`; the `Type` field is spelled `Type'`
because `Type` is a Lean keyword.  Fields never read by the aggregation,
filtering or summary code paths (Column, Code, Fix, RuleID, URL, Message,
Metadata, Source, Rule, Confidence, Event) are omitted. -/
structure CodeIssue where
  Title : String
  Description : String
  File : String
  Line : Int
  Severity : String
  Type' : String
  Tool : String
  Language : String
deriving DecidableEq

/-- Model of `models.Summary`.  The `map[string]int` counters are total
functions (missing key = 0, matching Go map reads). `DependencyGraph` and
`FileCount` are set outside `AddIssue` and are irrelevant to the claims. -/
structure Summary where
  TotalIssues : Nat
  CriticalCount : Nat
  ErrorCount : Nat
  WarningCount : Nat
  InfoCount : Nat
  HintCount : Nat
  IssuesByType : String → Nat
  IssuesByFile : String → Nat
  IssuesByLanguage : String → Nat
  IssuesByTool : String → Nat

/-- Model of `models.AnalysisResult`: the issue sequence and its summary.
The ID/timestamp/duration/output-file metadata and the mutex are omitted:
the mutex serialises `AddIssue` calls, which the sequential model reflects,
and the metadata is never read by the aggregation logic. -/
structure AnalysisResult where
  Issues : List CodeIssue
  Summary : Summary

/-- Model of `models.DetectLanguageFromFile`. -/
def detectLanguageFromFile (filePath : String) : String :=
  if filePath = "" then "unknown"
  else
    let ext := goToLower (filepathExt filePath)
    if ext = "" then
      match filepathBase filePath with
      | "Dockerfile" => "dockerfile"
      | "Makefile" => "makefile"
      | "Gemfile" => "ruby"
      | "Rakefile" => "ruby"
      | "package.json" => "json"
      | "tsconfig.json" => "json"
      | "README.md" => "markdown"
      | "CHANGELOG.md" => "markdown"
      | _ => "unknown"
    else
      match goTrimPrefixFn ext "." with
      | "go" => "go"
      | "js" => "javascript"
      | "ts" => "typescript"
      | "jsx" => "javascript"
      | "tsx" => "typescript"
      | "py" => "python"
      | "java" => "java"
      | "rb" => "ruby"
      | "php" => "php"
      | "c" => "c"
      | "h" => "c"
      | "cpp" => "cpp"
      | "hpp" => "cpp"
      | "cc" => "cpp"
      | "cs" => "csharp"
      | "rs" => "rust"
      | "swift" => "swift"
      | "kt" => "kotlin"
      | "kts" => "kotlin"
      | "sh" => "shell"
      | "yaml" => "yaml"
      | "yml" => "yaml"
      | "json" => "json"
      | "md" => "markdown"
      | "html" => "html"
      | "htm" => "html"
      | "css" => "css"
      | "sql" => "sql"
      | "dart" => "dart"
      | _ => "unknown"

/-- Increment of a Go `map[string]int` counter: `m[k]++`. -/
def bumpCount (m : String → Nat) (k : String) : String → Nat :=
  fun s => if s = k then m s + 1 else m s

/-- Model of `models.NewAnalysisResult` (fresh container: no issues, all
counters zero / empty maps). -/
def newAnalysisResult : AnalysisResult :=
  { Issues := []
    Summary :=
      { TotalIssues := 0, CriticalCount := 0, ErrorCount := 0, WarningCount := 0
        InfoCount := 0, HintCount := 0
        IssuesByType := fun _ => 0, IssuesByFile := fun _ => 0
        IssuesByLanguage := fun _ => 0, IssuesByTool := fun _ => 0 } }

/-- Model of `(*AnalysisResult).AddIssue`.  Note that the Go method
increments the per-severity counters (no `default` branch: an unknown
severity increments none of them) and the four group maps, but never
touches `Summary.TotalIssues`. -/
def addIssue (r : AnalysisResult) (issue0 : CodeIssue) : AnalysisResult :=
  let issue :=
    if issue0.File.data.length > 0 ∧ issue0.Language = "" then
      { issue0 with Language := detectLanguageFromFile issue0.File }
    else issue0
  let s := r.Summary
  let s :=
    if issue.Severity = "CRITICAL" then { s with CriticalCount := s.CriticalCount + 1 }
    else if issue.Severity = "ERROR" then { s with ErrorCount := s.ErrorCount + 1 }
    else if issue.Severity = "WARNING" then { s with WarningCount := s.WarningCount + 1 }
    else if issue.Severity = "INFO" then { s with InfoCount := s.InfoCount + 1 }
    else if issue.Severity = "HINT" then { s with HintCount := s.HintCount + 1 }
    else s
  { Issues := r.Issues ++ [issue]
    Summary :=
      { s with
        IssuesByType := bumpCount s.IssuesByType issue.Type'
        IssuesByFile := bumpCount s.IssuesByFile issue.File
        IssuesByTool := bumpCount s.IssuesByTool issue.Tool
        IssuesByLanguage := bumpCount s.IssuesByLanguage (detectLanguageFromFile issue.File) } }

/-! ### Result aggregator (cmd/aggregator.go) -/

/-- Model of `getSeverityWeight`. -/
def getSeverityWeight (severity : String) : Int :=
  if severity = "CRITICAL" then 4
  else if severity = "ERROR" then 3
  else if severity = "WARNING" then 2
  else if severity = "INFO" then 1
  else if severity = "HINT" then 0
  else -1

/-- Model of `getTypeWeight`. -/
def getTypeWeight (issueType : String) : Int :=
  if issueType = "SECURITY" then 5
  else if issueType = "BUG" then 4
  else if issueType = "PERFORMANCE" then 3
  else if issueType = "MAINTAINABILITY" then 2
  else if issueType = "DEPENDENCY" then 1
  else if issueType = "CODE_STYLE" then 0
  else -1

/-- The deduplication key of `removeDuplicates`:
`issue.File + ":" + string(issue.Line) + ":" + issue.Description`.
`string(issue.Line)` is Go's int-to-rune-to-string conversion
(`goStringOfInt`), not a decimal rendering. -/
def goKey (issue : CodeIssue) : String :=
  issue.File ++ ":" ++ goStringOfInt issue.Line ++ ":" ++ issue.Description

/-- Association-list lookup for the dedup map (`issueMap[key]`). -/
def lookupKey : List (String × CodeIssue) → String → Option CodeIssue
  | [], _ => none
  | (k, v) :: rest, key => if k = key then some v else lookupKey rest key

/-- In-place value update for the dedup map (`issueMap[key] = issue` when
the key is already present). -/
def replaceEntry : List (String × CodeIssue) → String → CodeIssue → List (String × CodeIssue)
  | [], _, _ => []
  | (k, v) :: rest, key, issue =>
    if k = key then (k, issue) :: rest else (k, v) :: replaceEntry rest key issue

/-- One iteration of the dedup loop of `removeDuplicates`: keep the
incumbent unless the new issue's severity weight is strictly higher. -/
def dedupStep (m : List (String × CodeIssue)) (issue : CodeIssue) : List (String × CodeIssue) :=
  let key := goKey issue
  match lookupKey m key with
  | some existing =>
    if getSeverityWeight issue.Severity > getSeverityWeight existing.Severity then
      replaceEntry m key issue
    else m
  | none => m ++ [(key, issue)]

/-- Model of `removeDuplicates`: fold the issues into the map, then
re-insert the surviving issues into a fresh result via `AddIssue`.
The Go map is modelled as an association list in key-insertion order;
Go's map iteration order is unspecified and no theorem depends on it. -/
def removeDuplicates (result : AnalysisResult) : AnalysisResult :=
  let m := result.Issues.foldl dedupStep []
  m.foldl (fun acc kv => addIssue acc kv.2) newAnalysisResult

/-- The comparison closure passed to `sort.Slice` in `prioritizeIssues`:
severity weight descending, then type weight descending, then file path
ascending, then line ascending. -/
def goIssueLess (i j : CodeIssue) : Bool :=
  if getSeverityWeight i.Severity ≠ getSeverityWeight j.Severity then
    getSeverityWeight i.Severity > getSeverityWeight j.Severity
  else if getTypeWeight i.Type' ≠ getTypeWeight j.Type' then
    getTypeWeight i.Type' > getTypeWeight j.Type'
  else if i.File ≠ j.File then goStringLt i.File j.File
  else i.Line < j.Line

/-- The non-strict order induced by the `sort.Slice` comparator: `i` may
come before `j` exactly when `j` is not strictly below `i`. -/
def leIssue (i j : CodeIssue) : Prop := goIssueLess j i = false

instance leIssueDecidable : DecidableRel leIssue := fun _ _ => by
  unfold leIssue; infer_instance

/-- Model of `prioritizeIssues`.  `sort.Slice` guarantees that the slice
is a permutation of its input sorted with respect to the comparator, but
not stability; we model it with insertion sort, which satisfies the same
contract, and no theorem below relies on the particular order of
comparator-equal issues. -/
def prioritizeIssues (result : AnalysisResult) : AnalysisResult :=
  { result with Issues := List.insertionSort leIssue result.Issues }

/-- Model of `AggregateResults` with AI scoring disabled
(`config.AI.Enabled = false` skips `scoreSeverityWithAI`). -/
def aggregateNoAI (result : AnalysisResult) : AnalysisResult :=
  prioritizeIssues (removeDuplicates result)

/-- Model of `severityToValue` (note the scale: critical/high/medium/low/
info; anything else, case-insensitively, is 0). -/
def severityToValue (severity : String) : Int :=
  if goToLower severity = "critical" then 4
  else if goToLower severity = "high" then 3
  else if goToLower severity = "medium" then 2
  else if goToLower severity = "low" then 1
  else if goToLower severity = "info" then 0
  else 0

/-- Model of `FilterIssuesByThreshold` (append loop over the issues). -/
def filterIssuesByThreshold (result : AnalysisResult) (threshold : String) : List CodeIssue :=
  result.Issues.foldl
    (fun acc issue =>
      if severityToValue issue.Severity ≥ severityToValue threshold then acc ++ [issue]
      else acc)
    []

/-! ### Q&A agent (internal/agent/agent.go) -/

/-- Model of `Chunk`: a piece of a document with its embedding
(`[]float32`, modelled as `List ℚ`). -/
structure Chunk where
  Path : String
  Content : String
  Embedding : List ℚ

/-- Model of `CachedData`: the persisted index and the repository-state
hash it corresponds to. -/
structure CachedData where
  CommitHash : String
  VectorStore : List Chunk

/-- The accumulation loop of `cosineSimilarity`: for `i < len(a)` add
`a[i]*b[i]`, `a[i]*a[i]`, `b[i]*b[i]` to the three accumulators; reading
`b[i]` past the end of `b` is an out-of-bounds access (Go panic),
modelled as `none`.  On the all-zero path the float arithmetic is exact,
so `ℚ` models it faithfully. -/
def simSums : List ℚ → List ℚ → ℚ × ℚ × ℚ → Option (ℚ × ℚ × ℚ)
  | [], _, acc => some acc
  | _ :: _, [], _ => none
  | x :: xs, y :: ys, (d, na, nb) => simSums xs ys (d + x * y, na + x * x, nb + y * y)

/-- Model of `cosineSimilarity`: accumulate dot product and the two
squared norms over the indices of `a`, return `0.0` when either computed
norm is zero, otherwise divide by the product of the square roots. -/
noncomputable def cosineSimilarity (a b : List ℚ) : Option ℝ :=
  match simSums a b (0, 0, 0) with
  | none => none
  | some (d, na, nb) =>
    some (if na = 0 ∨ nb = 0 then (0 : ℝ) else (d : ℝ) / (Real.sqrt (na : ℝ) * Real.sqrt (nb : ℝ)))

/-- The scoring loop of `retrieveChunks`: score every stored chunk against
the question embedding (a panic in any `cosineSimilarity` call is `none`). -/
noncomputable def scoreChunks (questionEmbedding : List ℚ) : List Chunk → Option (List (Chunk × ℝ))
  | [] => some []
  | c :: rest =>
    match cosineSimilarity questionEmbedding c.Embedding, scoreChunks questionEmbedding rest with
    | some s, some tail => some ((c, s) :: tail)
    | _, _ => none

/-- Model of `retrieveChunks`: score all chunks, sort by score descending
(`sort.Slice` modelled by a sort meeting its contract; no theorem below
depends on the tie order), and return the first `min k |store|` chunks. -/
noncomputable def retrieveChunks (store : List Chunk) (questionEmbedding : List ℚ) (k : Nat) :
    Option (List Chunk) :=
  match scoreChunks questionEmbedding store with
  | none => none
  | some scored =>
    let sorted := List.insertionSort (fun x y : Chunk × ℝ => y.2 ≤ x.2) scored
    let limit := if scored.length < k then scored.length else k
    some ((sorted.take limit).map Prod.fst)

/-- Model of `splitIntoChunks` with the source constants
`chunkSize = 512`, `chunkOverlap = 50` (step 462): windows of 512 runes
starting every 462 runes, the last window truncated at the end. -/
def splitChunksGo (runes : List Char) : List String :=
  if h : runes = [] then []
  else String.mk (runes.take 512) :: splitChunksGo (runes.drop 462)
termination_by runes.length
decreasing_by
  have hlen : 0 < runes.length := List.length_pos.mpr h
  simp only [List.length_drop]
  omega

/-- Go `splitIntoChunks(text)`: operates on the rune sequence of the text. -/
def splitIntoChunks (text : String) : List String := splitChunksGo text.data

/-- Model of `isTextFile`: exclude `.DS_Store`, a binary-extension
denylist, and anything inside a `.git/` directory. -/
def isTextFile (path : String) : Bool :=
  if filepathBase path = ".DS_Store" then false
  else
    match goToLower (filepathExt path) with
    | ".png" => false
    | ".jpg" => false
    | ".jpeg" => false
    | ".gif" => false
    | ".zip" => false
    | ".tar" => false
    | ".gz" => false
    | ".exe" => false
    | ".bin" => false
    | ".so" => false
    | ".dll" => false
    | ".pdf" => false
    | _ => if containsSub path.data ".git/".data then false else true

/-- One entry of the `filepath.Walk` traversal, as seen by the callback of
`Agent.index`: the visited path, whether it is a directory, the
`filepath.Rel`-computed relative path, and the `os.ReadFile` outcome. -/
structure WalkEntry where
  path : String
  isDir : Bool
  relPath : String
  content : Except String String

/-- Environment of `NewAgent`/`index`: the outcomes of every external call
the construction path makes.  `walkError` models an error handed to (or
produced by) the walk callback outside the per-file read — such an error
aborts the whole walk; `embed` is the per-chunk
`aiClient.GenerateEmbeddings` oracle; `saveResult` is the `saveCache`
outcome (only logged); `cached` is the `loadCache` outcome (file open or
gob decode failure is the `error` case). -/
structure AgentEnv where
  stateHash : Except String String
  cachePath : Except String String
  cached : Except String CachedData
  walkError : Option String
  walkFiles : List WalkEntry
  embed : String → Except String (List ℚ)
  saveResult : Except String Unit

/-- Model of the `Agent` as observable after construction.  `reindexed` is
a ghost flag recording whether the store was rebuilt by `index` (`true`)
or taken from the cache (`false`). -/
structure Agent where
  vectorStore : List Chunk
  reindexed : Bool

/-- The body of `Agent.index`'s walk: skip directories and non-text files;
a file read failure skips that file (`return nil`); each chunk whose
embedding call fails is skipped (`continue`); every successfully embedded
chunk is appended to the store in traversal order. -/
def indexFiles (embed : String → Except String (List ℚ)) (files : List WalkEntry) : List Chunk :=
  files.foldl
    (fun store f =>
      if f.isDir || !isTextFile f.path then store
      else
        match f.content with
        | .error _ => store
        | .ok text =>
          (splitIntoChunks text).foldl
            (fun st c =>
              match embed c with
              | .error _ => st
              | .ok e => st ++ [⟨f.relPath, c, e⟩])
            store)
    []

/-- Model of `Agent.index`: a walk-infrastructure error aborts with that
error, otherwise the walk produces `indexFiles`. -/
def indexWalk (env : AgentEnv) : Except String (List Chunk) :=
  match env.walkError with
  | some e => .error e
  | none => .ok (indexFiles env.embed env.walkFiles)

/-- The re-index path of `NewAgent`: run `index`, wrap its failure fatally;
then `saveCache` — whose outcome (`env.saveResult`) is only logged, never
consulted, so a persistence failure cannot affect the returned agent. -/
def newAgentReindex (env : AgentEnv) : Except String Agent :=
  match indexWalk env with
  | .error e => .error ("failed to index repository: " ++ e)
  | .ok store => .ok ⟨store, true⟩

/-- Model of `NewAgent`: compute the repository-state hash and the cache
path (each failure fatal), use the cached store exactly when the cache
loads and its hash equals the fresh hash, otherwise re-index. -/
def newAgent (env : AgentEnv) : Except String Agent :=
  match env.stateHash with
  | .error e => .error ("could not determine repository state: " ++ e)
  | .ok stateHash =>
    match env.cachePath with
    | .error e => .error ("could not determine cache path: " ++ e)
    | .ok _ =>
      match env.cached with
      | .ok cachedData =>
        if cachedData.CommitHash = stateHash then .ok ⟨cachedData.VectorStore, false⟩
        else newAgentReindex env
      | .error _ => newAgentReindex env

/-- Model of the `toolChoice` JSON shape decoded by `routeToTool`. -/
structure ToolChoice where
  Tool : String
  Query : String
  FilePath : String
  Reason : String

/-- Environment of `Agent.Ask`: `genContent` is the
`aiClient.GenerateContent` oracle (a function of the prompt);
`parseToolChoice` is the `encoding/json` unmarshalling oracle for the
router response; `astExec` is the external `astTool.Execute`;
`ragAnswer` is the outcome of `answerWithRAG` on a question — the routing
and fallback claims below quantify over every possible RAG outcome, so the
RAG pipeline is abstracted to its `(answer | error)` result here. -/
structure AskEnv where
  genContent : String → Except String String
  parseToolChoice : String → Except String ToolChoice
  astExec : String → String → Except String String
  ragAnswer : String → Except String String

/-- The router classification prompt of `routeToTool` (the `fmt.Sprintf`
template with the question substituted for `%s`). -/
def routerPrompt (question : String) : String :=
  "You are a router that decides which tool to use to answer a user\x27s question about a codebase.\n\nAvailable tools:\n1.  **vector_search**: Use for general questions about what code does, how it works, or for finding information across multiple files.\n2.  **ast_tool**: Use for specific questions about the structure of a **single Go file**. This is best for queries like \"find all http handlers in main.go\" or \"list global variables in cmd/server.go\".\n\nUser question: \"" ++
  question ++
  "\"\n\nYou must respond with a JSON object indicating the best tool.\nIf using \x27ast_tool\x27, you must also provide the \x27query\x27 and \x27file_path\x27.\nValid queries for \x27ast_tool\x27 are: \x27find_http_handlers\x27, \x27find_global_variables\x27.\nExtract the file path from the user\x27s question.\n\nExample responses:\n- For \"What does the WebhookHandler do?\": \x7b\"tool\": \"vector_search\", \"reason\": \"This is a general question about functionality.\"\x7d\n- For \"Show me all the HTTP handlers in cmd/webhook.go\": \x7b\"tool\": \"ast_tool\", \"query\": \"find_http_handlers\", \"file_path\": \"cmd/webhook.go\", \"reason\": \"This is a specific structural query about a Go file.\"\x7d\n\nYour response:"

/-- Model of `routeToTool`: one completion call on the classification
prompt, code-fence markup stripped, then JSON decoding; the decode error
is wrapped exactly as in the source. -/
def routeToTool (env : AskEnv) (question : String) : Except String ToolChoice :=
  match env.genContent (routerPrompt question) with
  | .error e => .error e
  | .ok response =>
    let cleaned := goTrimSuffixFn (goTrimPrefixFn response "```json") "```"
    match env.parseToolChoice cleaned with
    | .error e => .error ("failed to decode tool choice: " ++ e ++ ". Response: " ++ cleaned)
    | .ok choice => .ok choice

/-- The explanatory note prepended by `answerWithAST` when the AST tool
fails and the RAG fallback succeeds. -/
def fallbackMessage (e : String) : String :=
  "I tried to use the AST tool but encountered an error: " ++ e ++
  ". I will try to answer using a general search instead.\n\n"

/-- The presentation prompt of `answerWithAST` on AST-tool success. -/
def astPresentPrompt (originalQuestion toolResult : String) : String :=
  "You are a helpful AI assistant. A user asked a question, and an automated tool was run on the codebase to get a result. Your job is to present this result to the user in a clear, natural way.\n\nUser\x27s original question: \"" ++
  originalQuestion ++ "\"\nTool result:\n" ++ toolResult ++ "\n\nYour friendly response:"

/-- Model of `answerWithAST`: on AST-tool failure fall back to RAG on the
original question, prefixing the explanatory note; if RAG also fails,
surface the combined error; on AST-tool success, present the result via
one completion call. -/
def answerWithAST (env : AskEnv) (query filePath originalQuestion : String) :
    Except String String :=
  match env.astExec query filePath with
  | .error e =>
    match env.ragAnswer originalQuestion with
    | .error ragErr =>
      .error ("AST tool failed (" ++ e ++ ") and fallback RAG also failed (" ++ ragErr ++ ")")
    | .ok ragAnswer => .ok (fallbackMessage e ++ ragAnswer)
  | .ok toolResult => env.genContent (astPresentPrompt originalQuestion toolResult)

/-- Model of `Agent.Ask`: route the question; on any routing failure fall
back to RAG; route to the AST tool only on the explicit `"ast_tool"`
choice (`"vector_search"` falls through to the default RAG case). -/
def ask (env : AskEnv) (question : String) : Except String String :=
  match routeToTool env question with
  | .error _ => env.ragAnswer question
  | .ok toolChoice =>
    if toolChoice.Tool = "ast_tool" then
      answerWithAST env toolChoice.Query toolChoice.FilePath question
    else env.ragAnswer question

/-! ### Auxiliary definitions for the theorems -/

/-- The strict lexicographic order the `prioritizeIssues` comparator
implements: severity weight descending, type weight descending, file path
ascending (code-point lexicographic = Go byte order), line ascending. -/
def kLT (i j : CodeIssue) : Prop :=
  getSeverityWeight i.Severity > getSeverityWeight j.Severity ∨
    (getSeverityWeight i.Severity = getSeverityWeight j.Severity ∧
      (getTypeWeight i.Type' > getTypeWeight j.Type' ∨
        (getTypeWeight i.Type' = getTypeWeight j.Type' ∧
          (List.Lex (· < ·) i.File.data j.File.data ∨
            (i.File = j.File ∧ i.Line < j.Line)))))

/-- Keys-agree relation for the comparator: the four compared components
coincide (the comparator cannot distinguish the two issues). -/
def kEq (i j : CodeIssue) : Prop :=
  getSeverityWeight i.Severity = getSeverityWeight j.Severity ∧
    getTypeWeight i.Type' = getTypeWeight j.Type' ∧ i.File = j.File ∧ i.Line = j.Line

/-- Dot product over the index range of the first vector. -/
def dotQ (a b : List ℚ) : ℚ := (List.zipWith (· * ·) a b).sum

/-- Sum of squares (the exact value of the computed squared norm). -/
def sumSq (v : List ℚ) : ℚ := (v.map (fun x => x * x)).sum

/-- C1 failing input: two issues with distinct `(file, line, description)`
triples whose lines 0xD800 and 0xD801 are both surrogates, so Go's
`string(issue.Line)` renders both as U+FFFD and the dedup keys collide. -/
def lineIssueA : CodeIssue :=
  { Title := "", Description := "x", File := "a.go", Line := 55296
    Severity := "WARNING", Type' := "BUG", Tool := "lint", Language := "go" }

/-- Second C1 issue: same file and description, line 55297. -/
def lineIssueB : CodeIssue :=
  { lineIssueA with Line := 55297 }

/-- C1 input container. -/
def resultC1 : AnalysisResult :=
  { Issues := [lineIssueA, lineIssueB], Summary := newAnalysisResult.Summary }

/-- C3 counterexample issue: severity INFO. -/
def infoIssue : CodeIssue :=
  { Title := "", Description := "d", File := "a.go", Line := 1
    Severity := "INFO", Type' := "CODE_STYLE", Tool := "lint", Language := "go" }

/-- C3 input container. -/
def resultC3 : AnalysisResult :=
  { Issues := [infoIssue], Summary := newAnalysisResult.Summary }

/-- C4 example issues: severities INFO / CRITICAL / ERROR on the same
file and line, distinct descriptions (so deduplication keeps all three). -/
def exInfo : CodeIssue :=
  { Title := "", Description := "d1", File := "a.go", Line := 1
    Severity := "INFO", Type' := "BUG", Tool := "lint", Language := "go" }

/-- C4 example: CRITICAL issue. -/
def exCrit : CodeIssue :=
  { exInfo with Description := "d2", Severity := "CRITICAL" }

/-- C4 example: ERROR issue. -/
def exErr : CodeIssue :=
  { exInfo with Description := "d3", Severity := "ERROR" }

/-- C4 input container, issues in order [INFO, CRITICAL, ERROR]. -/
def resultC4 : AnalysisResult :=
  { Issues := [exInfo, exCrit, exErr], Summary := newAnalysisResult.Summary }

/-- C5 failing input: a fresh result receives one WARNING issue. -/
def warnIssue : CodeIssue :=
  { Title := "", Description := "d", File := "", Line := 1
    Severity := "WARNING", Type' := "BUG", Tool := "lint", Language := "" }

/-- Witness chunk for the agent environments. -/
def chunkW : Chunk := { Path := "a.go", Content := "package main", Embedding := [1] }

/-- Witness environment: valid cache whose hash matches the fresh hash. -/
def envHit : AgentEnv :=
  { stateHash := .ok "h1", cachePath := .ok "p"
    cached := .ok { CommitHash := "h1", VectorStore := [chunkW] }
    walkError := none, walkFiles := [], embed := fun _ => .ok [], saveResult := .ok () }

/-- Witness walk entry: one readable text file. -/
def fileW : WalkEntry :=
  { path := "/repo/a.go", isDir := false, relPath := "a.go", content := .ok "hi" }

/-- Witness environment: corrupt cache record, successful walk of one
file, and a failing cache save. -/
def envMiss : AgentEnv :=
  { stateHash := .ok "h1", cachePath := .ok "p"
    cached := .error "gob: corrupt record"
    walkError := none, walkFiles := [fileW]
    embed := fun _ => .ok [1], saveResult := .error "disk full" }

/-- Witness Ask environment: router picks the AST tool, the AST tool
fails, RAG succeeds. -/
def envAst : AskEnv :=
  { genContent := fun _ => .ok "resp"
    parseToolChoice := fun _ =>
      .ok { Tool := "ast_tool", Query := "find_http_handlers", FilePath := "main.go", Reason := "" }
    astExec := fun _ _ => .error "file not found"
    ragAnswer := fun _ => .ok "rag answer" }

/-! ### Theorems -/

/-- The Boolean lexicographic comparison agrees with `List.Lex (· < ·)`. -/
theorem listLtB_iff_lex : ∀ as bs : List Char, listLtB as bs = true ↔ List.Lex (· < ·) as bs
  | [], [] => by
    simp only [listLtB, Bool.false_eq_true, false_iff]
    exact List.Lex.not_nil_right _ _
  | [], _ :: _ => by
    simp only [listLtB, true_iff]
    exact List.Lex.nil
  | _ :: _, [] => by
    simp only [listLtB, Bool.false_eq_true, false_iff]
    exact List.Lex.not_nil_right _ _
  | a :: as, b :: bs => by
    simp only [listLtB]
    by_cases h1 : a < b
    · simp only [h1, if_true, true_iff]
      exact List.Lex.rel h1
    · by_cases h2 : b < a
      · simp only [h1, h2, if_true, if_false, Bool.false_eq_true, false_iff]
        intro hc
        cases hc with
        | cons hl => exact absurd h2 (lt_irrefl _)
        | rel hr => exact h1 hr
      · have heq : a = b := le_antisymm (not_lt.mp h2) (not_lt.mp h1)
        subst heq
        simp only [lt_irrefl, if_false]
        rw [listLtB_iff_lex as bs]
        exact (List.Lex.cons_iff).symm

/-- `listLtB` is irreflexive. -/
theorem listLtB_self (as : List Char) : listLtB as as = false := by
  rw [← Bool.not_eq_true, listLtB_iff_lex]
  intro hc
  exact (List.Lex.isAsymm (α := Char) (· < ·)).asymm _ _ hc hc

/-- The `sort.Slice` comparator decides exactly the strict lexicographic
order `kLT`. -/
theorem goIssueLess_iff (i j : CodeIssue) : goIssueLess i j = true ↔ kLT i j := by
  unfold goIssueLess kLT goStringLt
  by_cases hs : getSeverityWeight i.Severity = getSeverityWeight j.Severity
  · by_cases ht : getTypeWeight i.Type' = getTypeWeight j.Type'
    · by_cases hf : i.File = j.File
      · have hirr : ¬ List.Lex (· < ·) j.File.data j.File.data :=
          fun hc => (List.Lex.isAsymm (α := Char) (· < ·)).asymm _ _ hc hc
        simp [hs, ht, hf, hirr]
      · have hf' : i.File.data ≠ j.File.data := fun hd => hf (congrArg String.mk hd)
        simp [hs, ht, hf, listLtB_iff_lex, hf']
    · simp [hs, ht]
  · simp [hs]

/-- `kLT` is asymmetric. -/
theorem kLT_asymm {i j : CodeIssue} (h : kLT i j) : ¬ kLT j i := by
  intro h'
  unfold kLT at h h'
  rcases h with h | ⟨hs, h⟩ <;> rcases h' with h' | ⟨hs', h'⟩
  · omega
  · omega
  · omega
  · rcases h with h | ⟨ht, h⟩ <;> rcases h' with h' | ⟨ht', h'⟩
    · omega
    · omega
    · omega
    · rcases h with h | ⟨hf, h⟩ <;> rcases h' with h' | ⟨hf', h'⟩
      · exact (List.Lex.isAsymm (α := Char) (· < ·)).asymm _ _ h h'
      · rw [hf'] at h
        exact (List.Lex.isAsymm (α := Char) (· < ·)).asymm _ _ h h
      · rw [hf] at h'
        exact (List.Lex.isAsymm (α := Char) (· < ·)).asymm _ _ h' h'
      · omega

/-- `kLT` is transitive. -/
theorem kLT_trans {i j k : CodeIssue} (h1 : kLT i j) (h2 : kLT j k) : kLT i k := by
  unfold kLT at h1 h2 ⊢
  rcases h1 with h1 | ⟨hs1, h1⟩ <;> rcases h2 with h2 | ⟨hs2, h2⟩
  · exact Or.inl (by omega)
  · exact Or.inl (by omega)
  · exact Or.inl (by omega)
  · refine Or.inr ⟨by omega, ?_⟩
    rcases h1 with h1 | ⟨ht1, h1⟩ <;> rcases h2 with h2 | ⟨ht2, h2⟩
    · exact Or.inl (by omega)
    · exact Or.inl (by omega)
    · exact Or.inl (by omega)
    · refine Or.inr ⟨by omega, ?_⟩
      rcases h1 with h1 | ⟨hf1, h1⟩ <;> rcases h2 with h2 | ⟨hf2, h2⟩
      · exact Or.inl (trans_of (List.Lex (α := Char) (· < ·)) h1 h2)
      · exact Or.inl (hf2 ▸ h1)
      · exact Or.inl (hf1 ▸ h2)
      · exact Or.inr ⟨hf1.trans hf2, by omega⟩

/-- Comparator trichotomy: two issues are strictly ordered one way or the
other, or agree on all four compared components. -/
theorem kLT_trichotomy (i j : CodeIssue) : kLT i j ∨ kEq i j ∨ kLT j i := by
  unfold kLT kEq
  rcases lt_trichotomy (getSeverityWeight i.Severity) (getSeverityWeight j.Severity) with hs | hs | hs
  · exact Or.inr (Or.inr (Or.inl hs))
  · rcases lt_trichotomy (getTypeWeight i.Type') (getTypeWeight j.Type') with ht | ht | ht
    · exact Or.inr (Or.inr (Or.inr ⟨hs.symm, Or.inl ht⟩))
    · rcases (List.Lex.isTrichotomous (α := Char) (· < ·)).trichotomous i.File.data j.File.data
        with hf | hf | hf
      · exact Or.inl (Or.inr ⟨hs, Or.inr ⟨ht, Or.inl hf⟩⟩)
      · have hfe : i.File = j.File := congrArg String.mk hf
        rcases lt_trichotomy i.Line j.Line with hl | hl | hl
        · exact Or.inl (Or.inr ⟨hs, Or.inr ⟨ht, Or.inr ⟨hfe, hl⟩⟩⟩)
        · exact Or.inr (Or.inl ⟨hs, ht, hfe, hl⟩)
        · exact Or.inr (Or.inr (Or.inr ⟨hs.symm, Or.inr ⟨ht.symm, Or.inr ⟨hfe.symm, hl⟩⟩⟩))
      · exact Or.inr (Or.inr (Or.inr ⟨hs.symm, Or.inr ⟨ht.symm, Or.inl hf⟩⟩))
    · exact Or.inl (Or.inr ⟨hs, Or.inl ht⟩)
  · exact Or.inl (Or.inl hs)

/-- Issues whose compared components agree are interchangeable on the
right of `kLT`. -/
theorem kLT_congr_right {i j k : CodeIssue} (he : kEq j k) (h : kLT i j) : kLT i k := by
  unfold kEq at he
  unfold kLT at h ⊢
  obtain ⟨e1, e2, e3, e4⟩ := he
  rcases h with h | ⟨hs, h⟩
  · exact Or.inl (by omega)
  · refine Or.inr ⟨by omega, ?_⟩
    rcases h with h | ⟨ht, h⟩
    · exact Or.inl (by omega)
    · refine Or.inr ⟨by omega, ?_⟩
      rcases h with h | ⟨hf, hl⟩
      · exact Or.inl (e3 ▸ h)
      · exact Or.inr ⟨hf.trans e3, by omega⟩

/-- Issues whose compared components agree are interchangeable on the
left of `kLT`. -/
theorem kLT_congr_left {i j k : CodeIssue} (he : kEq i j) (h : kLT j k) : kLT i k := by
  unfold kEq at he
  unfold kLT at h ⊢
  obtain ⟨e1, e2, e3, e4⟩ := he
  rcases h with h | ⟨hs, h⟩
  · exact Or.inl (by omega)
  · refine Or.inr ⟨by omega, ?_⟩
    rcases h with h | ⟨ht, h⟩
    · exact Or.inl (by omega)
    · refine Or.inr ⟨by omega, ?_⟩
      rcases h with h | ⟨hf, hl⟩
      · exact Or.inl (e3 ▸ h)
      · exact Or.inr ⟨e3.trans hf, by omega⟩

/-- `leIssue` is total. -/
theorem leIssue_total : IsTotal CodeIssue leIssue := by
  constructor
  intro i j
  by_cases h : goIssueLess j i = true
  · right
    unfold leIssue
    rw [← Bool.not_eq_true]
    intro h'
    exact kLT_asymm ((goIssueLess_iff _ _).mp h) ((goIssueLess_iff _ _).mp h')
  · exact Or.inl (Bool.eq_false_iff.mpr (fun hc => h hc))

/-- `leIssue` is transitive. -/
theorem leIssue_trans : IsTrans CodeIssue leIssue := by
  constructor
  intro i j k h1 h2
  unfold leIssue at h1 h2 ⊢
  rw [← Bool.not_eq_true] at h1 h2 ⊢
  rw [goIssueLess_iff] at h1 h2 ⊢
  intro hki
  rcases kLT_trichotomy k j with hkj | hkj | hkj
  · exact h2 hkj
  · exact h1 (kLT_congr_left (by
      unfold kEq at hkj ⊢
      obtain ⟨e1, e2, e3, e4⟩ := hkj
      exact ⟨e1.symm, e2.symm, e3.symm, e4.symm⟩) hki)
  · exact h1 (kLT_trans hkj hki)

/-- C4: after aggregation the issue sequence is sorted by the total order
severity weight descending, then type weight descending (SECURITY=5,
BUG=4, PERFORMANCE=3, MAINTAINABILITY=2, DEPENDENCY=1, CODE_STYLE=0,
unknown=-1), then file path ascending, then line ascending: the sort
relation `leIssue` is exactly non-strict precedence in that lexicographic
order (`kLT`), `prioritizeIssues` emits a permutation of its input sorted
by it, and the concrete example [INFO, CRITICAL, ERROR] on one file/line
aggregates to [CRITICAL, ERROR, INFO]. -/
theorem spec_c4_ordering :
    (∀ i j : CodeIssue, leIssue i j ↔ ¬ kLT j i) ∧
      (∀ result : AnalysisResult,
        List.Sorted leIssue (prioritizeIssues result).Issues ∧
          ((prioritizeIssues result).Issues).Perm result.Issues) ∧
      (aggregateNoAI resultC4).Issues = [exCrit, exErr, exInfo] := by
  refine ⟨?_, ?_, by decide⟩
  · intro i j
    unfold leIssue
    rw [← goIssueLess_iff, Bool.eq_false_iff]
  · intro result
    constructor
    · haveI := leIssue_total
      haveI := leIssue_trans
      exact List.sorted_insertionSort leIssue result.Issues
    · exact List.perm_insertionSort leIssue result.Issues

/-- C1 (code bug): the dedup key is built with Go's `string(issue.Line)`
rune conversion, so the two issues of `resultC1` — whose
`(file, line, description)` triples differ (lines 0xD800 vs 0xD801) —
collide on one key and `removeDuplicates` keeps a single issue where the
claim requires one issue per distinct triple. -/
theorem spec_c1_dedup_key_bug :
    (removeDuplicates resultC1).Issues.length = 1 ∧
      goKey lineIssueA = goKey lineIssueB ∧
      ¬(lineIssueA.File = lineIssueB.File ∧ lineIssueA.Line = lineIssueB.Line ∧
        lineIssueA.Description = lineIssueB.Description) := by decide

/-- C5 (code bug): `AddIssue` increments the per-severity counters and the
group maps but never `Summary.TotalIssues`: after inserting one WARNING
issue into a fresh result, the issue sequence has length 1 and
`WarningCount` is 1, yet `TotalIssues` is still 0. -/
theorem spec_c5_totalissues_bug :
    (addIssue newAnalysisResult warnIssue).Issues.length = 1 ∧
      (addIssue newAnalysisResult warnIssue).Summary.WarningCount = 1 ∧
      (addIssue newAnalysisResult warnIssue).Summary.TotalIssues = 0 := by decide

/-- Append-style filtering loop equals `List.filter`. -/
theorem foldl_append_filter {α : Type} (p : α → Prop) [DecidablePred p] :
    ∀ (l acc : List α),
      l.foldl (fun acc x => if p x then acc ++ [x] else acc) acc =
        acc ++ l.filter (fun x => decide (p x)) := by
  intro l
  induction l with
  | nil => intro acc; simp
  | cons x xs ih =>
    intro acc
    by_cases h : p x <;> simp [h, ih, List.filter_cons]

/-- C3 counterexample: with threshold `"warning"` the filter keeps the
INFO issue of `resultC3` (it does not exclude INFO issues): `"warning"`
is not in `severityToValue`'s table, so both values are 0. -/
theorem spec_c3_threshold_cex :
    filterIssuesByThreshold resultC3 "warning" = [infoIssue] ∧
      infoIssue.Severity = "INFO" := by decide

/-- C3 (amended): `FilterIssuesByThreshold` retains exactly the issues
with `severityToValue(severity) ≥ severityToValue(threshold)`, where the
recognized names (case-insensitive) are critical=4, high=3, medium=2,
low=1, info=0 and every other string — including "warning", "error" and
"hint" — maps to 0; consequently filtering at threshold `"warning"`
(value 0) keeps every issue. -/
theorem spec_c3_threshold_filter :
    (∀ (result : AnalysisResult) (threshold : String),
        filterIssuesByThreshold result threshold =
          result.Issues.filter
            (fun issue => severityToValue threshold ≤ severityToValue issue.Severity)) ∧
      (∀ result : AnalysisResult, filterIssuesByThreshold result "warning" = result.Issues) := by
  have hchar : ∀ (result : AnalysisResult) (threshold : String),
      filterIssuesByThreshold result threshold =
        result.Issues.filter
          (fun issue => severityToValue threshold ≤ severityToValue issue.Severity) := by
    intro r t
    unfold filterIssuesByThreshold
    rw [foldl_append_filter (p := fun issue : CodeIssue =>
      severityToValue t ≤ severityToValue issue.Severity)]
    simp
  refine ⟨hchar, ?_⟩
  intro r
  rw [hchar]
  have hnn : ∀ s, 0 ≤ severityToValue s := by
    intro s
    unfold severityToValue
    split_ifs <;> norm_num
  have hw : severityToValue "warning" = 0 := by decide
  apply List.filter_eq_self.mpr
  intro a _
  rw [hw]
  exact decide_eq_true (hnn a.Severity)

/-- The accumulation loop of `cosineSimilarity`, in closed form, when the
second vector is long enough: it adds the dot product and the two sums of
squares (the second one over the index range of the first vector). -/
theorem simSums_ok : ∀ (a b : List ℚ) (acc : ℚ × ℚ × ℚ), a.length ≤ b.length →
    simSums a b acc =
      some (acc.1 + dotQ a b, acc.2.1 + sumSq a, acc.2.2 + sumSq (b.take a.length)) := by
  intro a
  induction a with
  | nil => intro b acc _; simp [simSums, dotQ, sumSq]
  | cons x xs ih =>
    intro b acc h
    cases b with
    | nil => simp at h
    | cons y ys =>
      obtain ⟨d, na, nb⟩ := acc
      simp only [simSums]
      rw [ih ys _ (by simpa using h)]
      simp only [dotQ, sumSq, List.zipWith_cons_cons, List.map_cons, List.sum_cons,
        List.length_cons, List.take_succ_cons, Option.some.injEq, Prod.mk.injEq]
      refine ⟨by ring, by ring, by ring⟩

/-- C9: when the two embedding vectors have equal length and either has
zero (computed) norm, `cosineSimilarity` returns exactly `0.0` — the
guard `normA == 0 || normB == 0` fires and the division branch is never
taken. -/
theorem spec_c9_zero_norm (a b : List ℚ) (hlen : a.length = b.length)
    (h0 : sumSq a = 0 ∨ sumSq b = 0) : cosineSimilarity a b = some 0 := by
  unfold cosineSimilarity
  rw [simSums_ok a b (0, 0, 0) (le_of_eq hlen)]
  have htake : b.take a.length = b := by rw [hlen]; exact List.take_length b
  rw [htake]
  simp only [zero_add]
  rw [if_pos h0]

/-- Witness for C9 at the concrete zero vectors `[0]`, `[0]`. -/
theorem spec_c9_zero_norm_witness :
    ([(0 : ℚ)].length = [(0 : ℚ)].length ∧ sumSq [(0 : ℚ)] = 0) ∧
      cosineSimilarity [(0 : ℚ)] [(0 : ℚ)] = some 0 :=
  ⟨⟨rfl, by simp [sumSq]⟩,
    spec_c9_zero_norm [(0 : ℚ)] [(0 : ℚ)] rfl (Or.inl (by simp [sumSq]))⟩

/-- The loop faults (reads past the end of `b`) exactly when `b` is
shorter than `a`. -/
theorem simSums_isSome : ∀ (a b : List ℚ) (acc : ℚ × ℚ × ℚ),
    (simSums a b acc).isSome = true ↔ a.length ≤ b.length := by
  intro a
  induction a with
  | nil => intro b acc; simp [simSums]
  | cons x xs ih =>
    intro b acc
    cases b with
    | nil => simp [simSums]
    | cons y ys =>
      obtain ⟨d, na, nb⟩ := acc
      simp only [simSums, List.length_cons]
      rw [ih]
      omega

/-- C10: `cosineSimilarity(a, b)` reads only indices `0..len(a)-1` of both
vectors, so it is free of out-of-bounds access exactly when
`len(b) ≥ len(a)`; lifted to `retrieveChunks`, retrieval never faults
exactly when every stored chunk embedding is at least as long as the query
embedding (nothing in the code checks this precondition). -/
theorem spec_c10_length_precondition :
    (∀ a b : List ℚ, (cosineSimilarity a b).isSome = true ↔ a.length ≤ b.length) ∧
      (∀ (store : List Chunk) (q : List ℚ) (k : Nat),
        (retrieveChunks store q k).isSome = true ↔
          ∀ c ∈ store, q.length ≤ c.Embedding.length) := by
  have hcos : ∀ a b : List ℚ, (cosineSimilarity a b).isSome = true ↔ a.length ≤ b.length := by
    intro a b
    unfold cosineSimilarity
    rw [← simSums_isSome a b (0, 0, 0)]
    cases simSums a b (0, 0, 0) with
    | none => simp
    | some acc => obtain ⟨d, na, nb⟩ := acc; simp
  refine ⟨hcos, ?_⟩
  have hscore : ∀ (q : List ℚ) (store : List Chunk),
      (scoreChunks q store).isSome = true ↔
        ∀ c ∈ store, q.length ≤ c.Embedding.length := by
    intro q store
    induction store with
    | nil => simp [scoreChunks]
    | cons c rest ih =>
      simp only [scoreChunks]
      cases hc : cosineSimilarity q c.Embedding with
      | none =>
        simp only [Option.isSome_none, Bool.false_eq_true, false_iff]
        intro hall
        have := (hcos q c.Embedding).mpr (hall c (List.mem_cons_self c rest))
        rw [hc] at this
        simp at this
      | some s =>
        cases hr : scoreChunks q rest with
        | none =>
          simp only [Option.isSome_none, Bool.false_eq_true, false_iff]
          intro hall
          have : (scoreChunks q rest).isSome = true := by
            rw [ih]
            intro x hx
            exact hall x (List.mem_cons_of_mem c hx)
          rw [hr] at this
          simp at this
        | some tail =>
          simp only [Option.isSome_some, eq_self_iff_true, true_iff]
          intro x hx
          rcases List.mem_cons.mp hx with hx | hx
          · subst hx
            have : (cosineSimilarity q x.Embedding).isSome = true := by rw [hc]; rfl
            exact (hcos q x.Embedding).mp this
          · have : (scoreChunks q rest).isSome = true := by rw [hr]; rfl
            rw [ih] at this
            exact this x hx
  intro store q k
  unfold retrieveChunks
  rw [← hscore q store]
  cases scoreChunks q store with
  | none => simp
  | some scored => simp

/-- The contribution of one walk entry to the index: nothing for
directories, non-text files and unreadable files; otherwise the chunks of
the file whose embedding call succeeded, in order. -/
def fileChunks (embed : String → Except String (List ℚ)) (f : WalkEntry) : List Chunk :=
  if f.isDir || !isTextFile f.path then []
  else
    match f.content with
    | .error _ => []
    | .ok text =>
      (splitIntoChunks text).filterMap fun c =>
        match embed c with
        | .ok e => some ⟨f.relPath, c, e⟩
        | .error _ => none

/-- The inner chunk loop appends exactly the successfully embedded chunks. -/
theorem chunkFold_eq (embed : String → Except String (List ℚ)) (relPath : String) :
    ∀ (chunks : List String) (st : List Chunk),
      chunks.foldl
          (fun st c =>
            match embed c with
            | .error _ => st
            | .ok e => st ++ [⟨relPath, c, e⟩])
          st =
        st ++ chunks.filterMap fun c =>
          match embed c with
          | .ok e => some (⟨relPath, c, e⟩ : Chunk)
          | .error _ => none := by
  intro chunks
  induction chunks with
  | nil => intro st; simp
  | cons c cs ih =>
    intro st
    simp only [List.foldl_cons, List.filterMap_cons]
    cases hc : embed c with
    | error e =>
      simp only [hc]
      exact ih st
    | ok e =>
      simp only [hc]
      rw [ih]
      simp

/-- The walk loop of `index` produces the concatenation of the per-file
contributions, in traversal order. -/
theorem indexFiles_eq (embed : String → Except String (List ℚ)) (files : List WalkEntry) :
    indexFiles embed files = files.flatMap (fileChunks embed) := by
  suffices hgen : ∀ (fs : List WalkEntry) (st : List Chunk),
      fs.foldl
          (fun store f =>
            if f.isDir || !isTextFile f.path then store
            else
              match f.content with
              | .error _ => store
              | .ok text =>
                (splitIntoChunks text).foldl
                  (fun st c =>
                    match embed c with
                    | .error _ => st
                    | .ok e => st ++ [⟨f.relPath, c, e⟩])
                  store)
          st =
        st ++ fs.flatMap (fileChunks embed) by
    unfold indexFiles
    rw [hgen files []]
    exact List.nil_append _
  intro fs
  induction fs with
  | nil => intro st; simp
  | cons f fs ih =>
    intro st
    simp only [List.foldl_cons, List.flatMap_cons, fileChunks]
    by_cases hskip : (f.isDir || !isTextFile f.path) = true
    · simp only [if_pos hskip, ih, List.nil_append]
    · simp only [if_neg hskip]
      cases hc : f.content with
      | error e =>
        simp only [hc, ih, List.nil_append]
      | ok text =>
        simp only [hc]
        rw [chunkFold_eq, ih, List.append_assoc]

/-- C8: during indexing a per-chunk embedding failure skips only that
chunk and a per-file read failure skips only that file — the index is
exactly the concatenation, in traversal order, of each readable text
file's successfully embedded chunks; and a failing `saveCache` after a
successful walk is non-fatal: `NewAgent` still returns the indexed agent. -/
theorem spec_c8_skip_and_nonfatal_save :
    (∀ (embed : String → Except String (List ℚ)) (files : List WalkEntry),
        indexFiles embed files = files.flatMap (fileChunks embed)) ∧
      (∀ (env : AgentEnv) (h p ce se : String),
        env.stateHash = .ok h → env.cachePath = .ok p → env.cached = .error ce →
        env.walkError = none → env.saveResult = .error se →
        newAgent env = .ok ⟨indexFiles env.embed env.walkFiles, true⟩) := by
  refine ⟨indexFiles_eq, ?_⟩
  intro env h p ce se h1 h2 h3 h4 h5
  unfold newAgent newAgentReindex indexWalk
  rw [h1, h2, h3, h4]

/-- Witness for C8 at `envMiss`: corrupt cache, one readable file, failing
save — the agent with the freshly indexed store is still returned. -/
theorem spec_c8_witness :
    newAgent envMiss = .ok ⟨indexFiles envMiss.embed envMiss.walkFiles, true⟩ :=
  spec_c8_skip_and_nonfatal_save.2 envMiss "h1" "p" "gob: corrupt record" "disk full"
    rfl rfl rfl rfl rfl

/-- The re-index path always marks the agent as re-indexed. -/
theorem newAgentReindex_reindexed (env : AgentEnv) :
    ∀ a, newAgentReindex env = .ok a → a.reindexed = true := by
  intro a
  unfold newAgentReindex
  cases indexWalk env with
  | error e => intro hc; cases hc
  | ok store =>
    intro hc
    cases hc
    rfl

/-- C6: with the fingerprint and cache path computed, the cached chunk
store is used (and returned unchanged, without re-indexing) exactly when
the record loads and its stored fingerprint equals the fresh one; a
load/decode failure is treated as a miss — `NewAgent` proceeds to the
re-index path and never propagates the load error. -/
theorem spec_c6_cache_validity (env : AgentEnv) (h p : String)
    (h1 : env.stateHash = .ok h) (h2 : env.cachePath = .ok p) :
    ((∃ d, env.cached = .ok d ∧ d.CommitHash = h) ↔
        (∃ a, newAgent env = .ok a ∧ a.reindexed = false)) ∧
      (∀ d, env.cached = .ok d → d.CommitHash = h →
        newAgent env = .ok ⟨d.VectorStore, false⟩) ∧
      (∀ d, env.cached = .ok d → d.CommitHash ≠ h →
        newAgent env = newAgentReindex env) ∧
      (∀ e, env.cached = .error e → newAgent env = newAgentReindex env) := by
  have hagent : newAgent env =
      match env.cached with
      | .ok d => if d.CommitHash = h then .ok ⟨d.VectorStore, false⟩ else newAgentReindex env
      | .error _ => newAgentReindex env := by
    unfold newAgent
    rw [h1, h2]
  refine ⟨?_, ?_, ?_, ?_⟩
  · constructor
    · rintro ⟨d, hd, hh⟩
      refine ⟨⟨d.VectorStore, false⟩, ?_, rfl⟩
      rw [hagent, hd]
      dsimp only
      rw [if_pos hh]
    · rintro ⟨a, ha, hre⟩
      rw [hagent] at ha
      cases hd : env.cached with
      | ok d =>
        rw [hd] at ha
        dsimp only at ha
        by_cases hh : d.CommitHash = h
        · exact ⟨d, rfl, hh⟩
        · rw [if_neg hh] at ha
          have := newAgentReindex_reindexed env a ha
          rw [this] at hre
          cases hre
      | error e =>
        rw [hd] at ha
        dsimp only at ha
        have := newAgentReindex_reindexed env a ha
        rw [this] at hre
        cases hre
  · intro d hd hh
    rw [hagent, hd]
    dsimp only
    rw [if_pos hh]
  · intro d hd hh
    rw [hagent, hd]
    dsimp only
    rw [if_neg hh]
  · intro e he
    rw [hagent, he]

/-- Witness for C6 at `envHit`: matching fingerprint, cached store is
returned without re-indexing. -/
theorem spec_c6_witness :
    newAgent envHit = .ok ⟨[chunkW], false⟩ :=
  (spec_c6_cache_validity envHit "h1" "p" rfl rfl).2.1
    { CommitHash := "h1", VectorStore := [chunkW] } rfl rfl

/-- C7: a routing failure — no completion response, or a response whose
cleaned text fails to decode — is never surfaced: `Ask` answers via the
semantic RAG path; and when the router picks the AST tool and the tool
fails, `Ask` falls back to RAG on the original question, prefixing the
note naming the failure, and errors only with the combined failure when
the RAG fallback fails too. -/
theorem spec_c7_routing_fallback (env : AskEnv) (q : String) :
    (∀ e, env.genContent (routerPrompt q) = .error e → ask env q = env.ragAnswer q) ∧
      (∀ resp pe, env.genContent (routerPrompt q) = .ok resp →
        env.parseToolChoice (goTrimSuffixFn (goTrimPrefixFn resp "```json") "```") = .error pe →
        ask env q = env.ragAnswer q) ∧
      (∀ choice, routeToTool env q = .ok choice → choice.Tool = "ast_tool" →
        ∀ e, env.astExec choice.Query choice.FilePath = .error e →
          (∀ ans, env.ragAnswer q = .ok ans →
            ask env q = .ok (fallbackMessage e ++ ans)) ∧
          (∀ re, env.ragAnswer q = .error re →
            ask env q =
              .error ("AST tool failed (" ++ e ++ ") and fallback RAG also failed (" ++
                re ++ ")"))) := by
  refine ⟨?_, ?_, ?_⟩
  · intro e he
    unfold ask routeToTool
    rw [he]
  · intro resp pe hresp hpe
    unfold ask routeToTool
    rw [hresp]
    dsimp only
    rw [hpe]
  · intro choice hroute htool e hast
    have hask : ask env q = answerWithAST env choice.Query choice.FilePath q := by
      unfold ask
      rw [hroute]
      dsimp only
      rw [if_pos htool]
    constructor
    · intro ans hans
      rw [hask]
      unfold answerWithAST
      rw [hast, hans]
    · intro re hre
      rw [hask]
      unfold answerWithAST
      rw [hast, hre]

/-- Witness for C7 at `envAst`: the router picks the AST tool, the tool
fails, RAG answers — `Ask` returns the prefixed RAG answer. -/
theorem spec_c7_witness :
    ask envAst "q" = .ok (fallbackMessage "file not found" ++ "rag answer") :=
  ((spec_c7_routing_fallback envAst "q").2.2
      { Tool := "ast_tool", Query := "find_http_handlers", FilePath := "main.go", Reason := "" }
      rfl rfl "file not found" rfl).1 "rag answer" rfl
